import Mathlib

/-!
Shallow embedding of the intent-dispatch core of the AI personal assistant
backend (`app/agent/action_executor.py` and `app/agent/meeting_scheduler.py`),
together with theorems checking the natural-language specification against it.

Modelling conventions:
* datetime instants are integers (a minute-resolution timeline `Time := Int`);
* external collaborators (dateutil parsing, the Google calendar client, the
  SMTP/IMAP email client, the web-search client) are fields of an `Env`
  record: pure functions from their inputs to their (possibly failing)
  results, since the Python wrappers catch all exceptions internally and
  return result dictionaries;
* the SQLAlchemy session is a `DBState` of in-memory tables in insertion
  order with an autoincrement counter; `query(...).first()` is `List.find?`
  (ascending-id / insertion order);
* the APScheduler singleton is a `Sched` value (job list keyed by job id,
  `add_job(replace_existing=True)` replaces the entry with the same id);
* handlers return their Python result dictionary as a `ResultObj` record of
  optional fields, the updated state, and an ordered trace of external
  side effects (`Effect`), so temporal claims are statements about traces.
-/

namespace Asis

abbrev Time := Int

/-!
Python string primitives (`.lower()`, `.strip()`, `.endswith`, slicing,
`len`) are modelled on the character list underlying a `String` — not on
Lean's byte-position `String` functions — so that every definition is
kernel-evaluable on concrete inputs. `Char.toLower` lowercases the ASCII
range, which covers every comparison the handlers perform.
-/

/-- `s.lower()`. -/
def lowerStr (s : String) : String := ⟨s.data.map Char.toLower⟩

def isSpaceChar (c : Char) : Bool := c = ' ' || c = '\t' || c = '\n' || c = '\r'

def dropLeadingSpace : List Char → List Char
  | [] => []
  | c :: t => if isSpaceChar c then dropLeadingSpace t else c :: t

/-- `s.strip()`. -/
def trimStr (s : String) : String :=
  ⟨(dropLeadingSpace (dropLeadingSpace s.data).reverse).reverse⟩

/-- `len(s)` (character count). -/
def strLen (s : String) : Nat := s.data.length

/-- `s.endswith(sfx)`. -/
def endsWithStr (s sfx : String) : Bool :=
  sfx.data.reverse.isPrefixOf s.data.reverse

/-- `s[:-n]`. -/
def dropRightStr (s : String) (n : Nat) : String :=
  ⟨s.data.take (s.data.length - n)⟩

/-- Substring test on character lists. -/
def charsInfix (n : List Char) : List Char → Bool
  | [] => n.isEmpty
  | c :: t => n.isPrefixOf (c :: t) || charsInfix n t

/-- `column.ilike(f"%{pat}%")`: case-insensitive containment of `pat` in `s`. -/
def containsCI (s pat : String) : Bool :=
  charsInfix (lowerStr pat).data (lowerStr s).data

/-- Python truthiness of an optional string (`None` and `""` are falsy). -/
def strTruthy : Option String → Option String
  | some s => if s = "" then none else some s
  | none => none

/-- Python truthiness of an optional integer id (`None` and `0` are falsy). -/
def natTruthy : Option Nat → Option Nat
  | some 0 => none
  | o => o

/-- Python truthiness of an optional bool (`None` is falsy). -/
def boolTruthy : Option Bool → Bool
  | some b => b
  | none => false

/-- `', '.join(names)`. -/
def joinComma (l : List String) : String :=
  String.intercalate ", " l

/-- `tasks` table row (`app/db/models.py`, class `Task`). -/
structure Task where
  id : Nat
  title : String
  description : Option String
  due_date : Option Time
  priority : Int
  category : Option String
  is_completed : Bool
  created_at : Time
  updated_at : Time
  deriving DecidableEq

/-- `shopping_items` table row (`app/db/models.py`, class `ShoppingItem`). -/
structure ShoppingItem where
  id : Nat
  name : String
  quantity : String
  category : Option String
  notes : Option String
  price_estimate : Option Int
  is_purchased : Bool
  created_at : Time
  deriving DecidableEq

/-- Status column of a calendar event; the code only ever writes
`"scheduled"` and `"cancelled"`. -/
inductive EvStatus where
  | scheduled
  | cancelled
  deriving DecidableEq

/-- `calendar_events` table row (`app/db/models.py`, class `CalendarEvent`). -/
structure CalendarEvent where
  id : Nat
  google_event_id : Option String
  title : String
  description : Option String
  start_time : Time
  end_time : Time
  meet_link : Option String
  attendee_email : Option String
  attendee_name : Option String
  reminder_time : Option Time
  status : EvStatus
  created_at : Time
  updated_at : Time
  deriving DecidableEq

/-- `agent_actions` audit-log row (`app/db/models.py`, class `AgentAction`). -/
structure AgentAction where
  id : Nat
  action_type : String
  target : Option String
  content : Option String
  status : String
  created_at : Time
  executed_at : Option Time
  deriving DecidableEq

/-- The relational store visible to one handler call, tables in insertion
order plus the autoincrement counter (ids start at 1). -/
structure DBState where
  tasks : List Task
  items : List ShoppingItem
  events : List CalendarEvent
  actions : List AgentAction
  nextId : Nat
  deriving DecidableEq

/-- APScheduler state: started flag, pending jobs `(job_id, run_date)`, and
the `scheduled_reminders` dict (`event_id -> job-id stem`). -/
structure Sched where
  started : Bool
  jobs : List (String × Time)
  reminders : List (String × String)
  deriving DecidableEq

/-- Full mutable state a dispatched call can touch. -/
structure AppState where
  db : DBState
  sched : Sched
  deriving DecidableEq

/-- Successful result of `calendar_service.create_event_with_meet`. -/
structure RemoteEvent where
  event_id : String
  meet_link : String
  event_link : String
  deriving DecidableEq

/-- One event as returned by `calendar_service.get_upcoming_events`. -/
structure RemoteListed where
  title : String
  start : String
  stop : String
  meet_link : Option String
  attendees : List String
  deriving DecidableEq

/-- An email as returned by the IMAP client. -/
structure EmailMsg where
  sender : String
  subject : String
  date : String
  body : String
  deriving DecidableEq

/-- Web-search result (`search_service.search` plus its formatter). -/
structure SearchRes where
  success : Bool
  results : List String
  direct_answer : Option String
  formatted : String
  deriving DecidableEq

/-- One entry of the `events` list built by `_list_calendar_events`, which
has a remote-sourced and a local-fallback shape. -/
inductive ListedEvent where
  | fromRemote (r : RemoteListed)
  | fromLocal (id : Nat) (title : String) (start stop : Time)
      (meet : Option String) (attendee : Option String)
  deriving DecidableEq

/-- External collaborators and ambient clock, as pure functions: every
Python wrapper used here catches its own exceptions and returns a result
dictionary, so `Except`/`Bool` results model them without a raise path. -/
structure Env where
  parseDate : String → Option Time
  now : Time
  utcnow : Time
  todayStart : Time
  tomorrowStart : Time
  smtpUser : Option String
  validateEmail : String → Bool
  sendEmail : String → Bool
  createEvent : String → Time → Time → List String → Bool → Int →
    Except String RemoteEvent
  deleteEvent : String → Bool
  getUpcoming : Nat → Except String (List RemoteListed)
  fetchRecent : Nat → Except String (List EmailMsg)
  searchMail : String → Except String (List EmailMsg)
  getEmailByIndex : Nat → Except String EmailMsg
  webSearch : String → SearchRes

/-- Ordered trace of externally visible side effects of one dispatch. -/
inductive Effect where
  | remoteCreate (title : String) (start stop : Time) (attendees : List String)
  | remoteDelete (eventId : String)
  | emailSent (recipient : String)
  | jobScheduled (jobId : String) (fireAt : Time)
  | dbCommit
  deriving DecidableEq

def Effect.isEmail : Effect → Bool
  | .emailSent _ => true
  | _ => false

def Effect.isCommit : Effect → Bool
  | .dbCommit => true
  | _ => false

/-- The payload handed to a handler: a JSON object or an array of objects. -/
structure PObj where
  title : Option String := none
  description : Option String := none
  due_date : Option String := none
  priority : Option Int := none
  category : Option String := none
  today : Option Bool := none
  task_id : Option Nat := none
  task_title : Option String := none
  name : Option String := none
  quantity : Option String := none
  notes : Option String := none
  price : Option Int := none
  item_id : Option Nat := none
  item_name : Option String := none
  purchased : Option Bool := none
  to_email : Option String := none
  subject : Option String := none
  body : Option String := none
  query : Option String := none
  count : Option Nat := none
  index : Option Nat := none
  start_time : Option String := none
  date : Option String := none
  time : Option String := none
  end_time : Option String := none
  duration_minutes : Option Int := none
  attendee_email : Option String := none
  attendee_name : Option String := none
  reminder_hours : Option Int := none
  event_id : Option Nat := none
  google_event_id : Option String := none
  deriving DecidableEq

inductive Payload where
  | obj (o : PObj)
  | arr (l : List PObj)
  deriving DecidableEq

/-- `action_data or {}`: `None` and the (falsy) empty list collapse to the
empty object before the handler runs. -/
def normPayload : Option Payload → Payload
  | none => .obj {}
  | some (.arr []) => .obj {}
  | some p => p

/-- The result dictionary every handler returns; absent keys are `none`. -/
structure ResultObj where
  success : Bool
  error : Option String := none
  action : Option String := none
  message : Option String := none
  count : Option Nat := none
  task_id : Option Nat := none
  item_id : Option Nat := none
  event_id : Option String := none
  meet_link : Option String := none
  full_list : Option (List String) := none
  total : Option Nat := none
  tasks : Option (List Task) := none
  items : Option (List ShoppingItem) := none
  emails : Option (List EmailMsg) := none
  email : Option EmailMsg := none
  events : Option (List ListedEvent) := none
  results : Option (List String) := none
  direct_answer : Option String := none
  formatted : Option String := none
  title : Option String := none
  start_time : Option Time := none
  attendee : Option String := none
  reminder_scheduled : Option Bool := none
  needs_ai_summary : Option Bool := none
  deriving DecidableEq

/-- Shorthand for the `{"success": False, "error": msg}` dictionary. -/
def failRes (msg : String) : ResultObj :=
  { success := false, error := some msg }

/-- Result of every handler: result dict, new state, ordered effect trace. -/
abbrev HRes := ResultObj × AppState × List Effect

/-- `str(AttributeError)` produced when a batch (list) payload reaches a
handler that calls `data.get(...)`; the wrapping `except` turns it into a
failure result after `db.rollback()`. -/
def listAttrErr : String := "list object has no attribute get"

def pyListErr (st : AppState) : HRes := (failRes listAttrErr, st, [])

/-! ### Task handlers (`ActionExecutor._add_task` .. `_delete_task`) -/

/-- Build and insert one `Task` row from one payload object, with the
handler's defaults (`title` default "Task fără titlu", `priority` default 1)
and a `due_date` that is parsed only when the field is truthy and that
silently becomes `NULL` when `dateutil` cannot parse it. -/
def addTaskRow (env : Env) (db : DBState) (o : PObj) : DBState :=
  let due : Option Time :=
    match strTruthy o.due_date with
    | some s => env.parseDate s
    | none => none
  let t : Task :=
    { id := db.nextId
      title := o.title.getD "Task fără titlu"
      description := o.description
      due_date := due
      priority := o.priority.getD 1
      category := o.category
      is_completed := false
      created_at := env.utcnow
      updated_at := env.utcnow }
  { db with tasks := db.tasks ++ [t], nextId := db.nextId + 1 }

/-- Titles of all not-completed tasks, in store order
(`db.query(Task).filter(Task.is_completed == False).all()`). -/
def activeTaskTitles (db : DBState) : List String :=
  (db.tasks.filter (fun t => !t.is_completed)).map (fun t => t.title)

def addTaskH (env : Env) (p : Payload) (st : AppState) : HRes :=
  match p with
  | .arr l =>
    let db := l.foldl (fun d o => addTaskRow env d o) st.db
    let added := l.map (fun o => o.title.getD "Task")
    let titles := activeTaskTitles db
    let n := l.length
    let names := joinComma added
    ({ success := true, action := some "add_task", count := some n,
       message := some s!"Am adăugat {n} task-uri: {names}.",
       full_list := some titles, total := some titles.length },
     { st with db := db }, [.dbCommit])
  | .obj o =>
    let db := addTaskRow env st.db o
    let titles := activeTaskTitles db
    let t := o.title.getD "Task fără titlu"
    ({ success := true, action := some "add_task", task_id := some st.db.nextId,
       message := some s!"Task-ul {t} a fost adăugat.",
       full_list := some titles, total := some titles.length },
     { st with db := db }, [.dbCommit])

/-- Nulls-first ascending comparison on the `due_date` key, the order
produced by `order_by(Task.due_date.asc().nullsfirst())`. -/
def dueLeB : Option Time → Option Time → Bool
  | none, _ => true
  | some _, none => false
  | some a, some b => decide (a ≤ b)

/-- The sort relation of `_list_tasks` as a decidable `Prop` relation. -/
def TaskDueLe (a b : Task) : Prop := dueLeB a.due_date b.due_date = true

instance : DecidableRel TaskDueLe := fun a b => by
  unfold TaskDueLe; exact inferInstance

instance : IsTotal Task TaskDueLe where
  total a b := by
    unfold TaskDueLe
    generalize a.due_date = x
    generalize b.due_date = y
    rcases x with _ | x <;> rcases y with _ | y <;> simp [dueLeB]
    exact Int.le_total x y

instance : IsTrans Task TaskDueLe where
  trans a b c h1 h2 := by
    unfold TaskDueLe at h1 h2 ⊢
    generalize hx : a.due_date = x at h1 ⊢
    generalize hy : b.due_date = y at h1 h2
    generalize hz : c.due_date = z at h2 ⊢
    rcases x with _ | x <;> rcases y with _ | y <;> rcases z with _ | z <;>
      simp_all [dueLeB]
    exact Int.le_trans h1 h2

/-- The row set `_list_tasks` passes to `order_by`: not-completed tasks,
optionally restricted to a category and to the current local day. -/
def listTasksRows (env : Env) (db : DBState) (o : PObj) : List Task :=
  let q0 := db.tasks.filter (fun t => !t.is_completed)
  let q1 :=
    match strTruthy o.category with
    | some c => q0.filter (fun t => t.category == some c)
    | none => q0
  if boolTruthy o.today then
    q1.filter (fun t =>
      match t.due_date with
      | some d => decide (env.todayStart ≤ d) && decide (d < env.tomorrowStart)
      | none => false)
  else q1

def listTasksH (env : Env) (p : Payload) (st : AppState) : HRes :=
  match p with
  | .arr _ => pyListErr st
  | .obj o =>
    let sorted := List.insertionSort TaskDueLe (listTasksRows env st.db o)
    ({ success := true, action := some "list_tasks",
       count := some sorted.length, tasks := some sorted }, st, [])

/-- `if data.get("task_id"): ... elif data.get("task_title"): ...` — the id
branch wins when truthy; neither branch filters on `is_completed`. -/
def taskLookup (db : DBState) (o : PObj) : Option Task :=
  match natTruthy o.task_id with
  | some i => db.tasks.find? (fun t => t.id == i)
  | none =>
    match strTruthy o.task_title with
    | some s => db.tasks.find? (fun t => containsCI t.title s)
    | none => none

def completeTaskH (env : Env) (p : Payload) (st : AppState) : HRes :=
  match p with
  | .arr _ => pyListErr st
  | .obj o =>
    match taskLookup st.db o with
    | none => (failRes "Task-ul nu a fost găsit.", st, [])
    | some t =>
      let db := { st.db with
        tasks := st.db.tasks.map (fun x =>
          if x.id = t.id then { x with is_completed := true, updated_at := env.utcnow }
          else x) }
      let nm := t.title
      ({ success := true, action := some "complete_task",
         message := some s!"Task-ul {nm} a fost marcat ca finalizat." },
       { st with db := db }, [.dbCommit])

def deleteTaskH (_env : Env) (p : Payload) (st : AppState) : HRes :=
  match p with
  | .arr _ => pyListErr st
  | .obj o =>
    match taskLookup st.db o with
    | none => (failRes "Task-ul nu a fost găsit.", st, [])
    | some t =>
      let db := { st.db with tasks := st.db.tasks.filter (fun x => x.id != t.id) }
      let nm := t.title
      ({ success := true, action := some "delete_task",
         message := some s!"Task-ul {nm} a fost șters." },
       { st with db := db }, [.dbCommit])

/-! ### Shopping handlers (`_add_shopping_item` .. `_remove_shopping_item`) -/

/-- Build and insert one `ShoppingItem` row (`name` default "Item",
`quantity` defaults to "1" when the field is absent or falsy). -/
def addItemRow (env : Env) (db : DBState) (o : PObj) : DBState :=
  let it : ShoppingItem :=
    { id := db.nextId
      name := o.name.getD "Item"
      quantity := (strTruthy o.quantity).getD "1"
      category := o.category
      notes := o.notes
      price_estimate := o.price
      is_purchased := false
      created_at := env.utcnow }
  { db with items := db.items ++ [it], nextId := db.nextId + 1 }

/-- Names of all not-purchased items, in store order. -/
def activeItemNames (db : DBState) : List String :=
  (db.items.filter (fun i => !i.is_purchased)).map (fun i => i.name)

def addShoppingItemH (env : Env) (p : Payload) (st : AppState) : HRes :=
  match p with
  | .arr l =>
    let db := l.foldl (fun d o => addItemRow env d o) st.db
    let added := l.map (fun o => o.name.getD "Item")
    let names := activeItemNames db
    let n := l.length
    let addedStr := joinComma added
    ({ success := true, action := some "add_shopping_item", count := some n,
       message := some s!"Am adăugat {n} produse pe listă: {addedStr}.",
       full_list := some names, total := some names.length },
     { st with db := db }, [.dbCommit])
  | .obj o =>
    let db := addItemRow env st.db o
    let names := activeItemNames db
    let nm := o.name.getD "Item"
    ({ success := true, action := some "add_shopping_item",
       item_id := some st.db.nextId,
       message := some s!"{nm} a fost adăugat la lista de cumpărături.",
       full_list := some names, total := some names.length },
     { st with db := db }, [.dbCommit])

def listShoppingH (_env : Env) (p : Payload) (st : AppState) : HRes :=
  match p with
  | .arr _ => pyListErr st
  | .obj o =>
    let q0 := st.db.items.filter (fun i => !i.is_purchased)
    let q1 :=
      match strTruthy o.category with
      | some c => q0.filter (fun i => i.category == some c)
      | none => q0
    ({ success := true, action := some "list_shopping",
       count := some q1.length, items := some q1 }, st, [])

/-- The ordered Romanian suffix candidates of `_remove_shopping_item`. -/
def roSuffixes : List String := ["urile", "ele", "ule", "ul", "le", "ii", "a"]

/-- The `for suffix in [...]`/`break` loop: strip the first suffix `s` of
the list such that `term.endswith(s) and len(term) > len(s) + 2`. -/
def stripRoSuffix (t : String) : List String → String
  | [] => t
  | s :: rest =>
    if endsWithStr t s && decide (strLen t > strLen s + 2) then
      dropRightStr t (strLen s)
    else stripRoSuffix t rest

/-- `data['item_name'].lower().strip()` followed by the suffix loop. -/
def normalizeItemName (s : String) : String :=
  stripRoSuffix (trimStr (lowerStr s)) roSuffixes

/-- Name-based lookup of `_remove_shopping_item`: substring search among
not-purchased rows for the normalized term, retried with the original term. -/
def itemByNameLookup (db : DBState) (nm : String) : Option ShoppingItem :=
  match db.items.find? (fun x =>
      containsCI x.name (normalizeItemName nm) && !x.is_purchased) with
  | some x => some x
  | none => db.items.find? (fun x => containsCI x.name nm && !x.is_purchased)

/-- Resolution of `_remove_shopping_item`: truthy id first (no purchased
filter on that branch), else fuzzy name lookup. -/
def itemLookup (db : DBState) (o : PObj) : Option ShoppingItem :=
  match natTruthy o.item_id with
  | some i => db.items.find? (fun x => x.id == i)
  | none =>
    match strTruthy o.item_name with
    | some nm => itemByNameLookup db nm
    | none => none

def removeShoppingItemH (_env : Env) (p : Payload) (st : AppState) : HRes :=
  match p with
  | .arr _ => pyListErr st
  | .obj o =>
    match itemLookup st.db o with
    | none => (failRes "Produsul nu a fost găsit pe listă.", st, [])
    | some it =>
      let nm := it.name
      if boolTruthy o.purchased then
        let db := { st.db with
          items := st.db.items.map (fun x =>
            if x.id = it.id then { x with is_purchased := true } else x) }
        ({ success := true, action := some "mark_purchased",
           message := some s!"{nm} a fost marcat ca cumpărat." },
         { st with db := db }, [.dbCommit])
      else
        let db := { st.db with items := st.db.items.filter (fun x => x.id != it.id) }
        ({ success := true, action := some "remove_shopping_item",
           message := some s!"{nm} a fost șters de pe listă." },
         { st with db := db }, [.dbCommit])

/-! ### Email and search handlers (`_send_email` .. `_search_internet`) -/

def sendEmailH (env : Env) (p : Payload) (st : AppState) : HRes :=
  match p with
  | .arr _ => pyListErr st
  | .obj o =>
    match strTruthy o.to_email with
    | none => (failRes "Adresa de email nu a fost specificată.", st, [])
    | some dest =>
      if !env.validateEmail dest then
        (failRes "Adresa de email nu este validă.", st, [])
      else
        let subj := o.subject.getD "Mesaj de la Asistentul AI"
        let bdy := o.body.getD ""
        let act : AgentAction :=
          { id := st.db.nextId, action_type := "email", target := some dest,
            content := some ("Subject: " ++ subj ++ "\n\n" ++ bdy),
            status := "pending", created_at := env.utcnow, executed_at := none }
        let db1 := { st.db with
          actions := st.db.actions ++ [act],
          nextId := st.db.nextId + 1 }
        let ok := env.sendEmail dest
        let db2 := { db1 with actions := db1.actions.map (fun a =>
          if a.id = act.id then
            { a with status := if ok then "completed" else "failed",
                     executed_at := some env.utcnow }
          else a) }
        let r : ResultObj :=
          if ok then { success := true, message := some s!"Email trimis către {dest}" }
          else failRes s!"Nu am putut trimite emailul către {dest}"
        (r, { st with db := db2 }, [.dbCommit, .emailSent dest, .dbCommit])

/-- Body truncation of the email list views (`body[:200] + "..."`). -/
def previewBody (m : EmailMsg) : EmailMsg :=
  if m.body.length > 200 then { m with body := m.body.take 200 ++ "..." } else m

def readEmailsH (env : Env) (p : Payload) (st : AppState) : HRes :=
  match p with
  | .arr _ => pyListErr st
  | .obj o =>
    match env.fetchRecent (o.count.getD 5) with
    | .error e => (failRes e, st, [])
    | .ok [] =>
      ({ success := true, action := some "read_emails",
         message := some "Nu ai emailuri noi în inbox.", emails := some [] }, st, [])
    | .ok ms =>
      let n := ms.length
      ({ success := true, action := some "read_emails",
         message := some s!"Ai {n} emailuri recente.",
         emails := some (ms.map previewBody) }, st, [])

def readLastEmailH (env : Env) (p : Payload) (st : AppState) : HRes :=
  match p with
  | .arr _ => pyListErr st
  | .obj _ =>
    match env.fetchRecent 1 with
    | .error e => (failRes e, st, [])
    | .ok [] =>
      ({ success := true, action := some "read_last_email",
         message := some "Nu ai emailuri noi în inbox.", email := none }, st, [])
    | .ok (m :: _) =>
      ({ success := true, action := some "read_last_email",
         message := some "Am citit ultimul email.", email := some m }, st, [])

def searchEmailsH (env : Env) (p : Payload) (st : AppState) : HRes :=
  match p with
  | .arr _ => pyListErr st
  | .obj o =>
    match strTruthy o.query with
    | none => (failRes "Nu ai specificat ce să caut în emailuri.", st, [])
    | some q =>
      match env.searchMail q with
      | .error e => (failRes e, st, [])
      | .ok [] =>
        ({ success := true, action := some "search_emails",
           message := some s!"Nu am găsit emailuri care să conțină {q}.",
           emails := some [] }, st, [])
      | .ok ms =>
        let n := ms.length
        ({ success := true, action := some "search_emails",
           message := some s!"Am găsit {n} emailuri pentru {q}.",
           emails := some (ms.map previewBody) }, st, [])

def summarizeEmailH (env : Env) (p : Payload) (st : AppState) : HRes :=
  match p with
  | .arr _ => pyListErr st
  | .obj o =>
    match env.getEmailByIndex (o.index.getD 1) with
    | .error e => (failRes e, st, [])
    | .ok m =>
      ({ success := true, action := some "summarize_email",
         message := some "Am citit emailul pentru rezumat.", email := some m,
         needs_ai_summary := some true }, st, [])

def searchInternetH (env : Env) (p : Payload) (st : AppState) : HRes :=
  match p with
  | .arr _ => pyListErr st
  | .obj o =>
    match strTruthy o.query with
    | none => (failRes "Nu ai specificat ce să caut.", st, [])
    | some q =>
      let sr := env.webSearch q
      ({ success := sr.success, action := some "search_internet",
         results := some sr.results, direct_answer := sr.direct_answer,
         formatted := some sr.formatted }, st, [])

/-! ### Meeting scheduler (`meeting_scheduler.py`) -/

/-- `add_job(..., id=jid, replace_existing=True)`: a pending job with the
same id is replaced. -/
def addJob (sch : Sched) (jid : String) (t : Time) : Sched :=
  { sch with jobs := sch.jobs.filter (fun j => j.1 != jid) ++ [(jid, t)] }

def ownerJobId (eventId : String) : String := "reminder_" ++ eventId ++ "_owner"

def attendeeJobId (eventId : String) : String := "reminder_" ++ eventId ++ "_attendee"

/-- `MeetingSchedulerService._schedule_reminder`: auto-start, one job for
the owner when `SMTP_USER` is configured, one for the attendee when present
and different from `SMTP_USER`, and the `scheduled_reminders` bookkeeping. -/
def scheduleReminder (env : Env) (eventId : String) (rt : Time)
    (attendee : Option String) (sch : Sched) : Sched × List Effect :=
  let sch0 := { sch with started := true }
  let (sch1, tr1) :=
    match env.smtpUser with
    | some _ => (addJob sch0 (ownerJobId eventId) rt,
                 [Effect.jobScheduled (ownerJobId eventId) rt])
    | none => (sch0, [])
  let (sch2, tr2) :=
    match attendee with
    | some ae =>
      if some ae ≠ env.smtpUser then
        (addJob sch1 (attendeeJobId eventId) rt,
         tr1 ++ [Effect.jobScheduled (attendeeJobId eventId) rt])
      else (sch1, tr1)
    | none => (sch1, tr1)
  ({ sch2 with reminders :=
      sch2.reminders.filter (fun r => r.1 != eventId) ++
        [(eventId, "reminder_" ++ eventId)] }, tr2)

/-- `MeetingSchedulerService.cancel_reminder`: `remove_job` on both role
job ids inside `try/except: pass` (a no-op when absent), drop the
`scheduled_reminders` entry, return `True`. Nothing in the body can raise,
so the `False` branch of the source is unreachable. -/
def cancelReminder (eventId : String) (sch : Sched) : Bool × Sched :=
  let jobs := sch.jobs.filter (fun j =>
    j.1 != ownerJobId eventId && j.1 != attendeeJobId eventId)
  (true, { sch with
    jobs := jobs,
    reminders := sch.reminders.filter (fun r => r.1 != eventId) })

/-- Arguments of `MeetingSchedulerService.schedule_meeting`; `leadMin` is
`int(reminder_hours_before * 60)`. -/
structure MArgs where
  title : String
  start : Time
  endT : Option Time
  attendee : Option String
  attendeeName : String
  desc : String
  leadMin : Int
  deriving DecidableEq

/-- The attendee list built by `schedule_meeting` (attendee first, then the
configured owner address). -/
def meetAttendees (env : Env) (a : MArgs) : List String :=
  (match a.attendee with | some e => [e] | none => []) ++
  (match env.smtpUser with | some u => [u] | none => [])

/-- The `create_event_with_meet` call made by `schedule_meeting`. -/
def createdMeet (env : Env) (a : MArgs) : Except String RemoteEvent :=
  env.createEvent a.title a.start (a.endT.getD (a.start + 60))
    (meetAttendees env a) true a.leadMin

/-- `MeetingSchedulerService.schedule_meeting`: remote event first (abort
on failure), then best-effort invitation and confirmation emails, then the
reminder jobs when `reminder_time` is still in the future. -/
def msScheduleMeeting (env : Env) (a : MArgs) (sch : Sched) :
    ResultObj × Sched × List Effect :=
  let endT := a.endT.getD (a.start + 60)
  let trC := [Effect.remoteCreate a.title a.start endT (meetAttendees env a)]
  match createdMeet env a with
  | .error e => (failRes e, sch, trC)
  | .ok re =>
    let trI := trC ++ (match a.attendee with
      | some e => [Effect.emailSent e]
      | none => [])
    let trO := trI ++ (match env.smtpUser with
      | some u => [Effect.emailSent u]
      | none => [])
    let rt := a.start - a.leadMin
    let (sch', trJ) :=
      if rt > env.now then scheduleReminder env re.event_id rt a.attendee sch
      else (sch, [])
    let ttl := a.title
    let lnk := re.meet_link
    ({ success := true, event_id := some re.event_id,
       meet_link := some re.meet_link, title := some a.title,
       start_time := some a.start, attendee := a.attendee,
       reminder_scheduled := some (decide (rt > env.now)),
       message := some s!"Întâlnirea {ttl} a fost programată cu succes. Link Google Meet: {lnk}" },
     sch', trO ++ trJ)

/-! ### Calendar handlers (`_schedule_meeting` .. `_cancel_calendar_event`) -/

/-- Start-time resolution of `_schedule_meeting`: truthy `start_time`
parsed, else truthy `date` and `time` concatenated and parsed. -/
def resolveStart (env : Env) (o : PObj) : Option Time :=
  match strTruthy o.start_time with
  | some s => env.parseDate s
  | none =>
    match strTruthy o.date, strTruthy o.time with
    | some d, some t => env.parseDate (d ++ " " ++ t)
    | _, _ => none

/-- The argument record `_schedule_meeting` hands to the scheduler
service: defaulted title, resolved end time (an unparseable `end_time`
string stays `None` and the service falls back to start + 1h), truthy
attendee, and `leadMin = reminder_hours * 60`. -/
def smArgs (env : Env) (o : PObj) (start : Time) : MArgs :=
  { title := o.title.getD "Întâlnire"
    start := start
    endT :=
      match strTruthy o.end_time with
      | some s => env.parseDate s
      | none => some (start + o.duration_minutes.getD 60)
    attendee := strTruthy o.attendee_email
    attendeeName := o.attendee_name.getD ""
    desc := o.description.getD ""
    leadMin := o.reminder_hours.getD 1 * 60 }

/-- The part of `_schedule_meeting` after the scheduler-service call: on
service success persist the CalendarEvent row and the AgentAction row and
commit, except that an `end_time` string that failed to parse leaves the
NOT NULL `end_time` column `None` — the commit raises `IntegrityError`,
the handler rolls back and fails, after the remote event, the emails and
the jobs already happened. On service failure the service result is
returned as-is. -/
def scheduleMeetingGo (env : Env) (a : MArgs) (st : AppState) : HRes :=
  match msScheduleMeeting env a st.sched with
  | (r, sch', tr) =>
    if r.success then
      match a.endT with
      | none =>
        (failRes "NOT NULL constraint failed: calendar_events.end_time",
         { st with sched := sch' }, tr)
      | some endV =>
        let ev : CalendarEvent :=
          { id := st.db.nextId, google_event_id := r.event_id,
            title := a.title, description := some a.desc,
            start_time := a.start, end_time := endV,
            meet_link := r.meet_link, attendee_email := a.attendee,
            attendee_name := some a.attendeeName,
            reminder_time := some (a.start - a.leadMin),
            status := .scheduled,
            created_at := env.utcnow, updated_at := env.utcnow }
        let act : AgentAction :=
          { id := st.db.nextId + 1, action_type := "schedule_meeting",
            target := a.attendee,
            content := some ("Meeting: " ++ a.title),
            status := "completed", created_at := env.utcnow,
            executed_at := some env.utcnow }
        let db := { st.db with
          events := st.db.events ++ [ev],
          actions := st.db.actions ++ [act],
          nextId := st.db.nextId + 2 }
        ({ success := true, action := some "schedule_meeting",
           event_id := r.event_id, meet_link := r.meet_link,
           title := some a.title, start_time := some a.start,
           attendee := a.attendee, message := r.message },
         { db := db, sched := sch' }, tr ++ [.dbCommit])
    else (r, { st with sched := sch' }, tr)

/-- Validation of the attendee address (`if attendee_email and not
email_service.validate_email(...)`) followed by the scheduler call. -/
def scheduleMeetingCore (env : Env) (o : PObj) (start : Time) (st : AppState) : HRes :=
  match strTruthy o.attendee_email with
  | some ae =>
    if !env.validateEmail ae then
      (failRes s!"Adresa de email {ae} nu este validă.", st, [])
    else scheduleMeetingGo env (smArgs env o start) st
  | none => scheduleMeetingGo env (smArgs env o start) st

def scheduleMeetingH (env : Env) (p : Payload) (st : AppState) : HRes :=
  match p with
  | .arr _ => pyListErr st
  | .obj o =>
    match resolveStart env o with
    | none => (failRes "Nu am putut determina data și ora întâlnirii.", st, [])
    | some start =>
      if start ≤ env.now then
        (failRes "Data întâlnirii trebuie să fie în viitor.", st, [])
      else scheduleMeetingCore env o start st

def addCalendarEventH (env : Env) (p : Payload) (st : AppState) : HRes :=
  match p with
  | .arr _ => pyListErr st
  | .obj o =>
    let start? :=
      match strTruthy o.start_time with
      | some s => env.parseDate s
      | none =>
        match strTruthy o.date with
        | some d => env.parseDate (d ++ " " ++ o.time.getD "09:00")
        | none => none
    match start? with
    | none => (failRes "Nu am putut determina data evenimentului.", st, [])
    | some start =>
      let endT := start + o.duration_minutes.getD 60
      let ttl := o.title.getD "Eveniment"
      let trC := [Effect.remoteCreate ttl start endT []]
      match env.createEvent ttl start endT [] false 60 with
      | .error e => (failRes e, st, trC)
      | .ok re =>
        let ev : CalendarEvent :=
          { id := st.db.nextId, google_event_id := some re.event_id,
            title := ttl, description := some (o.description.getD ""),
            start_time := start, end_time := endT, meet_link := none,
            attendee_email := none, attendee_name := none,
            reminder_time := none, status := .scheduled,
            created_at := env.utcnow, updated_at := env.utcnow }
        let db := { st.db with
          events := st.db.events ++ [ev],
          nextId := st.db.nextId + 1 }
        ({ success := true, action := some "add_calendar_event",
           event_id := some re.event_id, title := some ttl,
           start_time := some start,
           message := some s!"Evenimentul {ttl} a fost adăugat în calendar." },
         { st with db := db }, trC ++ [.dbCommit])

/-- Ascending `start_time` order used by the local fallback listing. -/
def EvStartLe (a b : CalendarEvent) : Prop := a.start_time ≤ b.start_time

instance : DecidableRel EvStartLe := fun a b => by
  unfold EvStartLe; exact inferInstance

def listCalendarEventsH (env : Env) (_p : Payload) (st : AppState) : HRes :=
  match env.getUpcoming 10 with
  | .ok [] =>
    ({ success := true, action := some "list_calendar_events",
       count := some 0, events := some [],
       message := some "Nu ai evenimente programate." }, st, [])
  | .ok evs =>
    let out := evs.map ListedEvent.fromRemote
    let n := out.length
    ({ success := true, action := some "list_calendar_events",
       count := some n, events := some out,
       message := some s!"Ai {n} evenimente programate." }, st, [])
  | .error _ =>
    let rows := st.db.events.filter (fun e =>
      decide (e.start_time ≥ env.now) && e.status == EvStatus.scheduled)
    let rows := (List.insertionSort EvStartLe rows).take 10
    let out := rows.map (fun e =>
      ListedEvent.fromLocal e.id e.title e.start_time e.end_time
        e.meet_link e.attendee_email)
    let n := out.length
    ({ success := true, action := some "list_calendar_events",
       count := some n, events := some out,
       message := some s!"Ai {n} evenimente programate." }, st, [])

/-- Resolution of `_cancel_calendar_event`: truthy local id, else truthy
remote id, else title substring restricted to `status == "scheduled"`. -/
def cancelLookup (db : DBState) (o : PObj) : Option CalendarEvent :=
  match natTruthy o.event_id with
  | some i => db.events.find? (fun e => e.id == i)
  | none =>
    match strTruthy o.google_event_id with
    | some g => db.events.find? (fun e => e.google_event_id == some g)
    | none =>
      match strTruthy o.title with
      | some t => db.events.find? (fun e =>
          containsCI e.title t && e.status == EvStatus.scheduled)
      | none => none

def cancelCalendarEventH (env : Env) (p : Payload) (st : AppState) : HRes :=
  match p with
  | .arr _ => pyListErr st
  | .obj o =>
    match cancelLookup st.db o with
    | none => (failRes "Evenimentul nu a fost găsit.", st, [])
    | some ev =>
      let (sch', tr') :=
        match strTruthy ev.google_event_id with
        | some g =>
          let _ := env.deleteEvent g
          ((cancelReminder g st.sched).2, [Effect.remoteDelete g])
        | none => (st.sched, [])
      let db := { st.db with events := st.db.events.map (fun e =>
        if e.id = ev.id then
          { e with status := .cancelled, updated_at := env.utcnow }
        else e) }
      let ttl := ev.title
      ({ success := true, action := some "cancel_calendar_event",
         message := some s!"Evenimentul {ttl} a fost anulat." },
       { db := db, sched := sch' }, tr' ++ [.dbCommit])

/-! ### Dispatcher (`ActionExecutor.execute`) -/

/-- The fixed 17-entry handler registry, in source order. -/
def actionIntents : List String :=
  ["add_task", "list_tasks", "complete_task", "delete_task",
   "add_shopping_item", "list_shopping", "remove_shopping_item",
   "send_email", "read_emails", "read_last_email", "search_emails",
   "summarize_email", "search_internet", "schedule_meeting",
   "add_calendar_event", "list_calendar_events", "cancel_calendar_event"]

/-- `ActionExecutor.execute`: registry lookup, `action_data or {}`
normalization, structured unknown-intent failure without dispatch. -/
def execute (env : Env) (intent : String) (pay : Option Payload)
    (st : AppState) : HRes :=
  let p := normPayload pay
  if intent = "add_task" then addTaskH env p st
  else if intent = "list_tasks" then listTasksH env p st
  else if intent = "complete_task" then completeTaskH env p st
  else if intent = "delete_task" then deleteTaskH env p st
  else if intent = "add_shopping_item" then addShoppingItemH env p st
  else if intent = "list_shopping" then listShoppingH env p st
  else if intent = "remove_shopping_item" then removeShoppingItemH env p st
  else if intent = "send_email" then sendEmailH env p st
  else if intent = "read_emails" then readEmailsH env p st
  else if intent = "read_last_email" then readLastEmailH env p st
  else if intent = "search_emails" then searchEmailsH env p st
  else if intent = "summarize_email" then summarizeEmailH env p st
  else if intent = "search_internet" then searchInternetH env p st
  else if intent = "schedule_meeting" then scheduleMeetingH env p st
  else if intent = "add_calendar_event" then addCalendarEventH env p st
  else if intent = "list_calendar_events" then listCalendarEventsH env p st
  else if intent = "cancel_calendar_event" then cancelCalendarEventH env p st
  else ({ success := false, error := some ("Unknown intent: " ++ intent) }, st, [])

/-! ### Spec-worded comparison definition and concrete fixtures -/

def Effect.isJob : Effect → Bool
  | .jobScheduled _ _ => true
  | _ => false

/-- The claim's normalization guard, written from the spec's words for
comparison with the source's `stripRoSuffix`: "strip only if the remaining
stem length exceeds the suffix length by more than 2 characters". -/
def stripRoSuffixSpec (t : String) : List String → String
  | [] => t
  | s :: rest =>
    if endsWithStr t s && decide (strLen t - strLen s > strLen s + 2) then
      dropRightStr t (strLen s)
    else stripRoSuffixSpec t rest

/-- Spec-worded counterpart of `normalizeItemName`. -/
def normalizeItemNameSpec (s : String) : String :=
  stripRoSuffixSpec (trimStr (lowerStr s)) roSuffixes

/-- A concrete environment for witnesses and counterexamples: the parser
knows one timestamp, every collaborator call succeeds, the remote listing
is offline. -/
def envOk : Env :=
  { parseDate := fun s => if s = "mâine la 10" then some 600 else none
    now := 0
    utcnow := 50
    todayStart := 0
    tomorrowStart := 1440
    smtpUser := some "owner@example.com"
    validateEmail := fun _ => true
    sendEmail := fun _ => true
    createEvent := fun _ _ _ _ _ _ =>
      .ok { event_id := "g1", meet_link := "meet.example", event_link := "cal.example" }
    deleteEvent := fun _ => true
    getUpcoming := fun _ => .error "offline"
    fetchRecent := fun _ => .ok []
    searchMail := fun _ => .ok []
    getEmailByIndex := fun _ => .error "no email"
    webSearch := fun _ =>
      { success := false, results := [], direct_answer := none, formatted := "" } }

def db0 : DBState := { tasks := [], items := [], events := [], actions := [], nextId := 1 }

def sch0 : Sched := { started := false, jobs := [], reminders := [] }

def st0 : AppState := { db := db0, sched := sch0 }

/-- A payload whose `due_date` no parser accepts. -/
def badDatePayload : PObj := { title := some "Control medical", due_date := some "cândva" }

/-- A fully valid meeting request against `envOk`. -/
def meetPayload : PObj :=
  { title := some "Sedinta", start_time := some "mâine la 10",
    attendee_email := some "ana@example.com", attendee_name := some "Ana" }

/-- Store with the single shopping item "mere" (C7 scenario). -/
def stMere : AppState :=
  { db := { db0 with
      items := [
        { id := 1, name := "mere", quantity := "1", category := none, notes := none,
          price_estimate := none, is_purchased := false, created_at := 0 }],
      nextId := 2 },
    sched := sch0 }

/-- Store whose only task is already completed (C8 counterexample). -/
def stDoc : AppState :=
  { db := { db0 with
      tasks := [
        { id := 1, title := "Sun la doctor", description := none, due_date := none,
          priority := 1, category := none, is_completed := true,
          created_at := 0, updated_at := 0 }],
      nextId := 2 },
    sched := sch0 }

/-- Active shopping item and scheduled event for the C8 witness. -/
def itemW : ShoppingItem :=
  { id := 1, name := "mere", quantity := "1", category := none, notes := none,
    price_estimate := none, is_purchased := false, created_at := 0 }

def evW : CalendarEvent :=
  { id := 2, google_event_id := some "g7", title := "Sedinta cu Dan",
    description := none, start_time := 600, end_time := 660, meet_link := none,
    attendee_email := none, attendee_name := none, reminder_time := none,
    status := .scheduled, created_at := 0, updated_at := 0 }

def dbW : DBState := { db0 with items := [itemW], events := [evW], nextId := 3 }

/-- One dated and one undated active task (C9 counterexample). -/
def stC9 : AppState :=
  { db := { db0 with
      tasks := [
        { id := 1, title := "Plata facturi", description := none, due_date := some 100,
          priority := 1, category := none, is_completed := false,
          created_at := 0, updated_at := 0 },
        { id := 2, title := "Curatenie", description := none, due_date := none,
          priority := 1, category := none, is_completed := false,
          created_at := 0, updated_at := 0 }],
      nextId := 3 },
    sched := sch0 }

/-- Tasks due today (100), later (2000), and undated, for the C9 witness. -/
def taskToday : Task :=
  { id := 1, title := "Plata facturi", description := none, due_date := some 100,
    priority := 1, category := none, is_completed := false,
    created_at := 0, updated_at := 0 }

def stC9W : AppState :=
  { db := { db0 with
      tasks := [
        taskToday,
        { id := 2, title := "Revizie", description := none, due_date := some 2000,
          priority := 1, category := none, is_completed := false,
          created_at := 0, updated_at := 0 },
        { id := 3, title := "Curatenie", description := none, due_date := none,
          priority := 1, category := none, is_completed := false,
          created_at := 0, updated_at := 0 }],
      nextId := 4 },
    sched := sch0 }

/-- Scheduled event with a remote id, plus one with none (C4/C10 fixtures). -/
def evG : CalendarEvent :=
  { id := 1, google_event_id := some "g1", title := "Sedinta", description := none,
    start_time := 600, end_time := 660, meet_link := some "meet.example",
    attendee_email := some "ana@example.com", attendee_name := some "Ana",
    reminder_time := some 540, status := .scheduled, created_at := 0, updated_at := 0 }

def evLocal : CalendarEvent :=
  { id := 3, google_event_id := none, title := "Aniversare", description := none,
    start_time := 900, end_time := 960, meet_link := none,
    attendee_email := none, attendee_name := none, reminder_time := none,
    status := .scheduled, created_at := 0, updated_at := 0 }

def stEvents : AppState :=
  { db := { db0 with events := [evG, evLocal], nextId := 4 },
    sched := { started := true,
               jobs := [("reminder_g1_owner", 540), ("reminder_g1_attendee", 540),
                        ("other_job", 700)],
               reminders := [("g1", "reminder_g1")] } }

/-- Concrete `MArgs` for the C3 witness, matching `envOk`. -/
def margsW : MArgs :=
  { title := "Sedinta", start := 600, endT := some 660,
    attendee := some "ana@example.com", attendeeName := "Ana", desc := "",
    leadMin := 60 }

def reW : RemoteEvent :=
  { event_id := "g1", meet_link := "meet.example", event_link := "cal.example" }

/-! ## Theorems -/

/-- C1: for every intent and payload, `execute` is a total function into
structured results (`ResultObj` always carries a Boolean `success`, and no
exception can escape the handler boundary of the embedding); in
particular, for any intent outside the 17-entry registry it returns
`success = false` with the unknown-intent error message, leaving the state
untouched and producing no side effect — no handler runs. -/
theorem C1_unknown_intent (env : Env) (pay : Option Payload) (st : AppState)
    (intent : String) (h : intent ∉ actionIntents) :
    execute env intent pay st =
      ({ success := false, error := some ("Unknown intent: " ++ intent) }, st, []) := by
  simp only [actionIntents, List.mem_cons, List.not_mem_nil, not_or, or_false] at h
  obtain ⟨h1, h2, h3, h4, h5, h6, h7, h8, h9, h10, h11, h12, h13, h14, h15, h16, h17⟩ := h
  simp only [execute, if_neg h1, if_neg h2, if_neg h3, if_neg h4, if_neg h5, if_neg h6,
    if_neg h7, if_neg h8, if_neg h9, if_neg h10, if_neg h11, if_neg h12, if_neg h13,
    if_neg h14, if_neg h15, if_neg h16, if_neg h17]

theorem C1_unknown_intent_witness :
    "make_coffee" ∉ actionIntents ∧
    execute envOk "make_coffee" none st0 =
      ({ success := false, error := some ("Unknown intent: " ++ "make_coffee") },
       st0, []) :=
  ⟨by decide, C1_unknown_intent envOk none st0 "make_coffee" (by decide)⟩

/-- C2 counterexample: an `add_task` request whose `due_date` no parser
accepts (`envOk.parseDate` rejects it) is not refused — the handler
returns `success = true` and persists the task with a `NULL` due date,
contradicting the claim that a malformed date field yields `success:false`
with no store mutation. -/
theorem C2_counterexample :
    envOk.parseDate "cândva" = none ∧
    ((execute envOk "add_task" (some (.obj badDatePayload)) st0).1.success = true) ∧
    (execute envOk "add_task" (some (.obj badDatePayload)) st0).2.1.db.tasks =
      [{ id := 1, title := "Control medical", description := none, due_date := none,
         priority := 1, category := none, is_completed := false,
         created_at := 50, updated_at := 50 }] := by
  decide

/-- C2 (amended): for `schedule_meeting` — the intent whose date is a
required, validated field — an unparseable/missing date or a start at or
before the current instant yields `success = false` with the state
untouched and an empty effect trace (no remote call, no email, no
persisted row, no scheduled job). For `add_task` a malformed `due_date`
is not a validation failure: it is silently coerced to `NULL` and the
insert still succeeds (see the counterexample). -/
theorem C2_schedule_meeting_validation (env : Env) (st : AppState) (o : PObj)
    (h : resolveStart env o = none ∨
      ∃ t, resolveStart env o = some t ∧ t ≤ env.now) :
    ((execute env "schedule_meeting" (some (.obj o)) st).1.success = false) ∧
    ((execute env "schedule_meeting" (some (.obj o)) st).2.1 = st) ∧
    ((execute env "schedule_meeting" (some (.obj o)) st).2.2 = []) := by
  have he : execute env "schedule_meeting" (some (.obj o)) st =
      scheduleMeetingH env (.obj o) st := rfl
  rcases h with h | ⟨t, ht, hle⟩
  · rw [he]; simp [scheduleMeetingH, h, failRes]
  · rw [he]; simp [scheduleMeetingH, ht, hle, failRes]

theorem C2_schedule_meeting_validation_witness :
    ((execute envOk "schedule_meeting" (some (.obj {})) st0).1.success = false) ∧
    ((execute envOk "schedule_meeting" (some (.obj {})) st0).2.1 = st0) ∧
    ((execute envOk "schedule_meeting" (some (.obj {})) st0).2.2 = []) :=
  C2_schedule_meeting_validation envOk st0 {} (Or.inl rfl)

/-- C7 counterexample: the source strips a suffix whenever the whole
term's length exceeds the suffix length by more than 2, not when the
remaining stem does. On "merele" the code strips "ele" leaving the stem
"mer" of length 3, although 3 is not greater than `"ele".length + 2 = 5`;
the claim's guard (modelled verbatim in `normalizeItemNameSpec`) would
leave "merele" unstripped, and then the claim's own example — resolving
stored "mere" from "merele" — could not succeed. -/
theorem C7_counterexample :
    normalizeItemName "merele" = "mer" ∧
    normalizeItemNameSpec "merele" = "merele" ∧
    ¬(strLen "mer" > strLen "ele" + 2) := by
  decide

/-- C7 (amended): lowercase and trim the given name; strip the first
matching suffix from the ordered list "urile", "ele", "ule", "ul", "le",
"ii", "a" only if the whole term's length exceeds the suffix length by
more than 2 (equivalently: the remaining stem is longer than 2
characters); then search not-purchased items for the normalized term as a
case-insensitive substring, retrying with the original term — so removing
"merele" resolves and deletes a stored item "mere". -/
theorem C7_fuzzy_normalization :
    (∀ t : String,
      stripRoSuffix t roSuffixes =
        match roSuffixes.find? (fun s =>
            endsWithStr t s && decide (strLen t > strLen s + 2)) with
        | some s => dropRightStr t (strLen s)
        | none => t) ∧
    (∀ env : Env,
      ((execute env "remove_shopping_item"
          (some (.obj { item_name := some "merele" })) stMere).1.success = true) ∧
      (execute env "remove_shopping_item"
          (some (.obj { item_name := some "merele" })) stMere).2.1.db.items = []) := by
  constructor
  · intro t
    have key : ∀ L : List String,
        stripRoSuffix t L =
          match L.find? (fun s =>
              endsWithStr t s && decide (strLen t > strLen s + 2)) with
          | some s => dropRightStr t (strLen s)
          | none => t := by
      intro L
      induction L with
      | nil => rfl
      | cons s rest ih =>
        by_cases h : (endsWithStr t s && decide (strLen t > strLen s + 2)) = true
        · simp [stripRoSuffix, List.find?, h]
        · simp only [Bool.not_eq_true] at h
          simp [stripRoSuffix, List.find?, h, ih]
    exact key roSuffixes
  · intro env
    exact ⟨rfl, rfl⟩

/-- C8 counterexample: a store whose only task is already completed; the
title lookup of `complete_task` still matches it and reports success,
because `_complete_task` (unlike the shopping and calendar lookups) never
filters on `is_completed`. -/
theorem C8_counterexample :
    (stDoc.db.tasks.all (fun t => t.is_completed) = true) ∧
    ((execute envOk "complete_task"
        (some (.obj { task_title := some "doctor" })) stDoc).1.success = true) := by
  decide

/-- C8 (amended): the shopping-item name lookup of
`remove_shopping_item` and the title lookup of `cancel_calendar_event`
only ever match active entities (`is_purchased = false`, status
scheduled); but the title lookups of `complete_task` and `delete_task`
search all tasks, completed ones included (see the counterexample). -/
theorem C8_active_only_lookups (db : DBState) (nm : String) (o : PObj)
    (it : ShoppingItem) (ev : CalendarEvent)
    (hit : itemByNameLookup db nm = some it)
    (h1 : natTruthy o.event_id = none)
    (h2 : strTruthy o.google_event_id = none)
    (hev : cancelLookup db o = some ev) :
    it.is_purchased = false ∧ ev.status = EvStatus.scheduled := by
  constructor
  · unfold itemByNameLookup at hit
    rcases hfind : db.items.find? (fun x =>
        containsCI x.name (normalizeItemName nm) && !x.is_purchased) with _ | x
    · rw [hfind] at hit
      simp only at hit
      have hp := List.find?_some hit
      simp only [Bool.and_eq_true, Bool.not_eq_true'] at hp
      exact hp.2
    · rw [hfind] at hit
      simp only at hit
      cases hit
      have hp := List.find?_some hfind
      simp only [Bool.and_eq_true, Bool.not_eq_true'] at hp
      exact hp.2
  · unfold cancelLookup at hev
    rw [h1, h2] at hev
    rcases h3 : strTruthy o.title with _ | t
    · rw [h3] at hev; cases hev
    · rw [h3] at hev
      have hp := List.find?_some hev
      simp only [Bool.and_eq_true, beq_iff_eq] at hp
      exact hp.2

theorem C8_active_only_lookups_witness :
    itemW.is_purchased = false ∧ evW.status = EvStatus.scheduled :=
  C8_active_only_lookups dbW "mere" { title := some "dan" } itemW evW
    (by decide) rfl rfl (by decide)

/-- C9 counterexample: with one dated and one undated active task, the
unfiltered listing returns the undated task first — the source orders by
`due_date.asc().nullsfirst()`, so `NULL` due dates sort before all dated
tasks, not after them as the claim states. -/
theorem C9_counterexample :
    ((execute envOk "list_tasks" (some (.obj {})) stC9).1.success = true) ∧
    (((execute envOk "list_tasks" (some (.obj {})) stC9).1.tasks.getD []).map
        (fun t => t.due_date) = [none, some 100]) ∧
    (((execute envOk "list_tasks" (some (.obj {})) stC9).1.tasks.getD []).map
        (fun t => t.id) = [2, 1]) := by
  decide

/-- C10: when `cancel_calendar_event` resolves an event whose
`google_event_id` is `NULL` (or the falsy empty string), no remote
deletion happens and no reminder job is cancelled — the scheduler state is
untouched and the only effect is the local commit — yet the local row is
set to `cancelled` with `updated_at` refreshed and the call reports
`success = true`. -/
theorem C10_cancel_local_only (env : Env) (st : AppState) (o : PObj)
    (ev : CalendarEvent)
    (hfind : cancelLookup st.db o = some ev)
    (hg : strTruthy ev.google_event_id = none) :
    ((execute env "cancel_calendar_event" (some (.obj o)) st).1.success = true) ∧
    ((execute env "cancel_calendar_event" (some (.obj o)) st).2.1.sched = st.sched) ∧
    ((execute env "cancel_calendar_event" (some (.obj o)) st).2.2 = [Effect.dbCommit]) ∧
    ((execute env "cancel_calendar_event" (some (.obj o)) st).2.1.db.events =
      st.db.events.map (fun e =>
        if e.id = ev.id then
          { e with status := EvStatus.cancelled, updated_at := env.utcnow }
        else e)) := by
  have he : execute env "cancel_calendar_event" (some (.obj o)) st =
      cancelCalendarEventH env (.obj o) st := rfl
  rw [he]
  simp [cancelCalendarEventH, hfind, hg]

theorem C10_cancel_local_only_witness :
    ((execute envOk "cancel_calendar_event"
        (some (.obj { event_id := some 3 })) stEvents).1.success = true) ∧
    ((execute envOk "cancel_calendar_event"
        (some (.obj { event_id := some 3 })) stEvents).2.1.sched = stEvents.sched) ∧
    ((execute envOk "cancel_calendar_event"
        (some (.obj { event_id := some 3 })) stEvents).2.2 = [Effect.dbCommit]) ∧
    ((execute envOk "cancel_calendar_event"
        (some (.obj { event_id := some 3 })) stEvents).2.1.db.events =
      stEvents.db.events.map (fun e =>
        if e.id = evLocal.id then
          { e with status := EvStatus.cancelled, updated_at := envOk.utcnow }
        else e)) :=
  C10_cancel_local_only envOk stEvents { event_id := some 3 } evLocal rfl rfl

theorem activeTaskTitles_addTaskRow (env : Env) (db : DBState) (o : PObj) :
    activeTaskTitles (addTaskRow env db o) =
      activeTaskTitles db ++ [o.title.getD "Task fără titlu"] := by
  simp [activeTaskTitles, addTaskRow]

theorem activeTaskTitles_addFold (env : Env) (l : List PObj) (db : DBState) :
    activeTaskTitles (l.foldl (fun d o => addTaskRow env d o) db) =
      activeTaskTitles db ++ l.map (fun o => o.title.getD "Task fără titlu") := by
  induction l generalizing db with
  | nil => simp
  | cons o rest ih =>
    simp [List.foldl_cons, ih, activeTaskTitles_addTaskRow, List.append_assoc]

theorem activeItemNames_addItemRow (env : Env) (db : DBState) (o : PObj) :
    activeItemNames (addItemRow env db o) =
      activeItemNames db ++ [o.name.getD "Item"] := by
  simp [activeItemNames, addItemRow]

theorem activeItemNames_addFold (env : Env) (l : List PObj) (db : DBState) :
    activeItemNames (l.foldl (fun d o => addItemRow env d o) db) =
      activeItemNames db ++ l.map (fun o => o.name.getD "Item") := by
  induction l generalizing db with
  | nil => simp
  | cons o rest ih =>
    simp [List.foldl_cons, ih, activeItemNames_addItemRow, List.append_assoc]

/-- C6: every successful add — single or batch, tasks or shopping items —
returns a `full_list` that is exactly the previously active titles/names
followed by the newly inserted ones (new rows are created active), with
the matching `count`/`total`; nothing is dropped and nothing duplicated. -/
theorem C6_add_full_list :
    (∀ (env : Env) (st : AppState) (o : PObj),
      ((execute env "add_task" (some (.obj o)) st).1.success = true) ∧
      ((execute env "add_task" (some (.obj o)) st).1.full_list =
        some (activeTaskTitles st.db ++ [o.title.getD "Task fără titlu"])) ∧
      ((execute env "add_task" (some (.obj o)) st).1.total =
        some (activeTaskTitles st.db ++ [o.title.getD "Task fără titlu"]).length)) ∧
    (∀ (env : Env) (st : AppState) (o : PObj) (l : List PObj),
      ((execute env "add_task" (some (.arr (o :: l))) st).1.success = true) ∧
      ((execute env "add_task" (some (.arr (o :: l))) st).1.count =
        some (o :: l).length) ∧
      ((execute env "add_task" (some (.arr (o :: l))) st).1.full_list =
        some (activeTaskTitles st.db ++
          (o :: l).map (fun x => x.title.getD "Task fără titlu")))) ∧
    (∀ (env : Env) (st : AppState) (o : PObj),
      ((execute env "add_shopping_item" (some (.obj o)) st).1.success = true) ∧
      ((execute env "add_shopping_item" (some (.obj o)) st).1.full_list =
        some (activeItemNames st.db ++ [o.name.getD "Item"])) ∧
      ((execute env "add_shopping_item" (some (.obj o)) st).1.total =
        some (activeItemNames st.db ++ [o.name.getD "Item"]).length)) ∧
    (∀ (env : Env) (st : AppState) (o : PObj) (l : List PObj),
      ((execute env "add_shopping_item" (some (.arr (o :: l))) st).1.success = true) ∧
      ((execute env "add_shopping_item" (some (.arr (o :: l))) st).1.count =
        some (o :: l).length) ∧
      ((execute env "add_shopping_item" (some (.arr (o :: l))) st).1.full_list =
        some (activeItemNames st.db ++ (o :: l).map (fun x => x.name.getD "Item")))) := by
  refine ⟨fun env st o => ?_, fun env st o l => ?_, fun env st o => ?_,
    fun env st o l => ?_⟩
  · have he : execute env "add_task" (some (.obj o)) st =
        addTaskH env (.obj o) st := rfl
    rw [he]
    simp [addTaskH, activeTaskTitles_addTaskRow]
  · have he : execute env "add_task" (some (.arr (o :: l))) st =
        addTaskH env (.arr (o :: l)) st := rfl
    rw [he]
    simp [addTaskH, activeTaskTitles_addFold, activeTaskTitles_addTaskRow,
      List.append_assoc]
  · have he : execute env "add_shopping_item" (some (.obj o)) st =
        addShoppingItemH env (.obj o) st := rfl
    rw [he]
    simp [addShoppingItemH, activeItemNames_addItemRow]
  · have he : execute env "add_shopping_item" (some (.arr (o :: l))) st =
        addShoppingItemH env (.arr (o :: l)) st := rfl
    rw [he]
    simp [addShoppingItemH, activeItemNames_addFold, activeItemNames_addItemRow,
      List.append_assoc]

theorem find?_map_pres {α : Type} (f : α → α) (p : α → Bool)
    (hf : ∀ x, p (f x) = p x) (l : List α) :
    (l.map f).find? p = (l.find? p).map f := by
  induction l with
  | nil => rfl
  | cons a t ih =>
    by_cases h : p a = true
    · have hfa : p (f a) = true := by rw [hf]; exact h
      simp [List.find?_cons_of_pos, h, hfa]
    · simp only [Bool.not_eq_true] at h
      have hfa : p (f a) = false := by rw [hf]; exact h
      simp [List.find?_cons_of_neg, h, hfa, ih]

/-- Success of a cancel call only needs the lookup to resolve; both the
remote-id and the local-only branch return `success = true`. -/
theorem cancelH_success (env : Env) (st : AppState) (o : PObj)
    (ev : CalendarEvent) (hlook : cancelLookup st.db o = some ev) :
    (cancelCalendarEventH env (.obj o) st).1.success = true := by
  rcases hgo : strTruthy ev.google_event_id with _ | g <;>
    simp [cancelCalendarEventH, hlook, hgo]

/-- C4 counterexample: cancelling the same event twice is NOT error-free
when the event is addressed by title. The title lookup of
`_cancel_calendar_event` filters `status == "scheduled"`, so after the
first (successful) cancel the second identical call resolves nothing and
returns the not-found failure result. -/
theorem C4_counterexample :
    ((execute envOk "cancel_calendar_event"
        (some (.obj { title := some "sedinta" })) stEvents).1.success = true) ∧
    ((execute envOk "cancel_calendar_event"
        (some (.obj { title := some "sedinta" }))
        ((execute envOk "cancel_calendar_event"
            (some (.obj { title := some "sedinta" })) stEvents).2.1)).1.success
      = false) ∧
    ((execute envOk "cancel_calendar_event"
        (some (.obj { title := some "sedinta" }))
        ((execute envOk "cancel_calendar_event"
            (some (.obj { title := some "sedinta" })) stEvents).2.1)).1.error
      = some "Evenimentul nu a fost găsit.") := by
  decide

/-- C4 (amended): cancelling reminders for an event id with no pending
reminder jobs is a no-op that still returns `True` (the `remove_job`
calls are wrapped in `try/except: pass`); `cancel_calendar_event` on an
event with a remote id removes both possible role jobs (owner and
attendee) from the scheduler; repeating the same cancel call addressed by
local id succeeds again with no error; but a repeated cancel addressed by
TITLE instead returns a not-found failure (see the counterexample),
because the title lookup only ever resolves events whose status is still
`"scheduled"` — the last conjunct proves that mechanism in general. -/
theorem C4_cancel_reminders (env : Env) (st : AppState) (o : PObj) (i : Nat)
    (ev : CalendarEvent) (g : String) (sch : Sched) (eid : String)
    (hfresh : ∀ j ∈ sch.jobs, j.1 ≠ ownerJobId eid ∧ j.1 ≠ attendeeJobId eid)
    (hid : natTruthy o.event_id = some i)
    (hfind : st.db.events.find? (fun x => x.id == i) = some ev)
    (hg : strTruthy ev.google_event_id = some g) :
    ((cancelReminder eid sch).1 = true ∧ (cancelReminder eid sch).2.jobs = sch.jobs) ∧
    ((execute env "cancel_calendar_event" (some (.obj o)) st).1.success = true) ∧
    (∀ j ∈ (execute env "cancel_calendar_event" (some (.obj o)) st).2.1.sched.jobs,
        j.1 ≠ ownerJobId g ∧ j.1 ≠ attendeeJobId g) ∧
    ((execute env "cancel_calendar_event" (some (.obj o))
        ((execute env "cancel_calendar_event" (some (.obj o)) st).2.1)).1.success
      = true) ∧
    (∀ (db2 : DBState) (o2 : PObj) (ev2 : CalendarEvent),
      natTruthy o2.event_id = none → strTruthy o2.google_event_id = none →
      cancelLookup db2 o2 = some ev2 → ev2.status = EvStatus.scheduled) := by
  have he : ∀ s : AppState, execute env "cancel_calendar_event" (some (.obj o)) s =
      cancelCalendarEventH env (.obj o) s := fun _ => rfl
  have hlook : cancelLookup st.db o = some ev := by
    unfold cancelLookup; rw [hid]; exact hfind
  have hstate : (cancelCalendarEventH env (.obj o) st).2.1 =
      { db := { st.db with events := st.db.events.map (fun e =>
          if e.id = ev.id then
            { e with status := EvStatus.cancelled, updated_at := env.utcnow }
          else e) },
        sched := (cancelReminder g st.sched).2 } := by
    simp [cancelCalendarEventH, hlook, hg]
  refine ⟨⟨rfl, ?_⟩, ?_, ?_, ?_, ?_⟩
  · simp only [cancelReminder]
    apply List.filter_eq_self.mpr
    intro j hj
    have hne := hfresh j hj
    simp [bne_iff_ne, hne.1, hne.2]
  · rw [he]; exact cancelH_success env st o ev hlook
  · rw [he, hstate]
    intro j hj
    simp only [cancelReminder, List.mem_filter, Bool.and_eq_true, bne_iff_ne] at hj
    exact hj.2
  · rw [he, he, hstate]
    have hf : ∀ e : CalendarEvent,
        ((if e.id = ev.id then
            { e with status := EvStatus.cancelled, updated_at := env.utcnow }
          else e).id == i) = (e.id == i) := by
      intro e; by_cases hx : e.id = ev.id <;> simp [hx]
    have hlook2 : cancelLookup
        ({ db := { st.db with events := st.db.events.map (fun e =>
            if e.id = ev.id then
              { e with status := EvStatus.cancelled, updated_at := env.utcnow }
            else e) },
           sched := (cancelReminder g st.sched).2 } : AppState).db o =
        some { ev with status := EvStatus.cancelled, updated_at := env.utcnow } := by
      unfold cancelLookup
      rw [hid]
      simp only
      rw [find?_map_pres _ _ hf, hfind]
      simp
    exact cancelH_success env _ o _ hlook2
  · intro db2 o2 ev2 h1 h2 hev
    unfold cancelLookup at hev
    rw [h1, h2] at hev
    rcases h3 : strTruthy o2.title with _ | t2
    · rw [h3] at hev; cases hev
    · rw [h3] at hev
      have hp := List.find?_some hev
      simp only [Bool.and_eq_true, beq_iff_eq] at hp
      exact hp.2

theorem C4_cancel_reminders_witness :
    ((cancelReminder "gGone" sch0).1 = true ∧
      (cancelReminder "gGone" sch0).2.jobs = sch0.jobs) ∧
    ((execute envOk "cancel_calendar_event"
        (some (.obj { event_id := some 1 })) stEvents).1.success = true) ∧
    (∀ j ∈ (execute envOk "cancel_calendar_event"
        (some (.obj { event_id := some 1 })) stEvents).2.1.sched.jobs,
        j.1 ≠ ownerJobId "g1" ∧ j.1 ≠ attendeeJobId "g1") ∧
    ((execute envOk "cancel_calendar_event" (some (.obj { event_id := some 1 }))
        ((execute envOk "cancel_calendar_event"
            (some (.obj { event_id := some 1 })) stEvents).2.1)).1.success = true) ∧
    (∀ (db2 : DBState) (o2 : PObj) (ev2 : CalendarEvent),
      natTruthy o2.event_id = none → strTruthy o2.google_event_id = none →
      cancelLookup db2 o2 = some ev2 → ev2.status = EvStatus.scheduled) :=
  C4_cancel_reminders envOk stEvents { event_id := some 1 } 1 evG "g1" sch0 "gGone"
    (by decide) rfl rfl rfl

theorem strLen_append (s t : String) : strLen (s ++ t) = strLen s + strLen t := by
  rcases s with ⟨sd⟩; rcases t with ⟨td⟩
  simp [strLen, String.append]

theorem ownerJobId_ne_attendeeJobId (e : String) :
    ownerJobId e ≠ attendeeJobId e := by
  intro h
  have hl := congrArg strLen h
  rw [ownerJobId, attendeeJobId, strLen_append, strLen_append,
    strLen_append, strLen_append] at hl
  have h6 : strLen "_owner" = 6 := rfl
  have h9 : strLen "_attendee" = 9 := rfl
  rw [h6, h9] at hl
  omega

theorem addJob_mem_self (sch : Sched) (jid : String) (t : Time) :
    (jid, t) ∈ (addJob sch jid t).jobs := by
  simp [addJob]

theorem addJob_mem_of_ne {sch : Sched} {j : String × Time} (hj : j ∈ sch.jobs)
    (jid : String) (t : Time) (h : j.1 ≠ jid) : j ∈ (addJob sch jid t).jobs := by
  simp [addJob, List.mem_append, List.mem_filter, hj, bne_iff_ne, h]

/-- Jobs and trace produced by `_schedule_reminder` when an owner address
is configured: the owner job always, the attendee job exactly when an
attendee is present and different from the owner. -/
theorem scheduleReminder_spec (env : Env) (eid : String) (rt : Time)
    (att : Option String) (sch : Sched) (org : String)
    (horg : env.smtpUser = some org) :
    ((scheduleReminder env eid rt att sch).2 =
      Effect.jobScheduled (ownerJobId eid) rt ::
        (match att with
         | some ae => if ae ≠ org then
             [Effect.jobScheduled (attendeeJobId eid) rt]
           else []
         | none => [])) ∧
    ((ownerJobId eid, rt) ∈ (scheduleReminder env eid rt att sch).1.jobs) ∧
    (∀ ae, att = some ae → ae ≠ org →
      (attendeeJobId eid, rt) ∈ (scheduleReminder env eid rt att sch).1.jobs) := by
  rcases att with _ | ae
  · have hjobs : (scheduleReminder env eid rt none sch).1.jobs =
        (addJob { sch with started := true } (ownerJobId eid) rt).jobs := by
      simp [scheduleReminder, horg]
    refine ⟨by simp [scheduleReminder, horg], ?_, by intro ae h; cases h⟩
    rw [hjobs]
    exact addJob_mem_self _ _ _
  · by_cases hae : ae = org
    · have hjobs : (scheduleReminder env eid rt (some ae) sch).1.jobs =
          (addJob { sch with started := true } (ownerJobId eid) rt).jobs := by
        simp [scheduleReminder, horg, hae]
      refine ⟨by simp [scheduleReminder, horg, hae], ?_, ?_⟩
      · rw [hjobs]
        exact addJob_mem_self _ _ _
      · intro x hx hne
        cases hx
        exact absurd hae hne
    · have hjobs : (scheduleReminder env eid rt (some ae) sch).1.jobs =
          (addJob (addJob { sch with started := true } (ownerJobId eid) rt)
            (attendeeJobId eid) rt).jobs := by
        simp [scheduleReminder, horg, hae]
      refine ⟨by simp [scheduleReminder, horg, hae], ?_, ?_⟩
      · rw [hjobs]
        exact addJob_mem_of_ne (addJob_mem_self _ _ _) _ _
          (ownerJobId_ne_attendeeJobId eid)
      · intro x hx _
        cases hx
        rw [hjobs]
        exact addJob_mem_self _ _ _

/-- C3: for every `schedule_meeting` whose remote creation succeeds (with
a configured organizer address), the call reports success; when
`reminder_time = start − lead` is still in the future it schedules exactly
one job for the owner (job id `reminder_<event>_owner`), plus exactly one
for the attendee (`reminder_<event>_attendee`) precisely when an attendee
is present and different from the organizer — 1 or 2 jobs firing at the
reminder time, all recorded in the scheduler state; when the reminder
time has already passed, no job is scheduled, the scheduler is untouched,
and no error is raised. -/
theorem C3_reminder_jobs (env : Env) (a : MArgs) (sch : Sched) (org : String)
    (re : RemoteEvent) (horg : env.smtpUser = some org)
    (hok : createdMeet env a = .ok re) :
    ((msScheduleMeeting env a sch).1.success = true) ∧
    ((msScheduleMeeting env a sch).2.2.filter Effect.isJob =
      if a.start - a.leadMin > env.now then
        Effect.jobScheduled (ownerJobId re.event_id) (a.start - a.leadMin) ::
          (match a.attendee with
           | some ae => if ae ≠ org then
               [Effect.jobScheduled (attendeeJobId re.event_id)
                 (a.start - a.leadMin)]
             else []
           | none => [])
      else []) ∧
    (a.start - a.leadMin > env.now →
      (ownerJobId re.event_id, a.start - a.leadMin) ∈
        (msScheduleMeeting env a sch).2.1.jobs ∧
      ∀ ae, a.attendee = some ae → ae ≠ org →
        (attendeeJobId re.event_id, a.start - a.leadMin) ∈
          (msScheduleMeeting env a sch).2.1.jobs) ∧
    (¬(a.start - a.leadMin > env.now) → (msScheduleMeeting env a sch).2.1 = sch) := by
  obtain ⟨htr, hown, hatt⟩ := scheduleReminder_spec env re.event_id
    (a.start - a.leadMin) a.attendee sch org horg
  by_cases hrt : a.start - a.leadMin > env.now
  · refine ⟨?_, ?_, ?_, fun hc => absurd hrt hc⟩
    · simp [msScheduleMeeting, hok]
    · simp only [msScheduleMeeting, hok, if_pos hrt, List.filter_append, htr]
      rcases hA : a.attendee with _ | ae <;> rcases hsm : env.smtpUser with _ | u
      · simp [Effect.isJob]
      · simp [Effect.isJob]
      · by_cases hae : ae = org <;> simp [Effect.isJob, hae]
      · by_cases hae : ae = org <;> simp [Effect.isJob, hae]
    · intro _
      constructor
      · simp only [msScheduleMeeting, hok, if_pos hrt]
        exact hown
      · intro ae hae hne
        simp only [msScheduleMeeting, hok, if_pos hrt]
        exact hatt ae hae hne
  · refine ⟨by simp [msScheduleMeeting, hok], ?_, fun hc => absurd hc hrt, ?_⟩
    · simp only [msScheduleMeeting, hok, if_neg hrt, List.filter_append]
      rcases hA : a.attendee with _ | ae <;> rcases hsm : env.smtpUser with _ | u <;>
        simp [Effect.isJob]
    · intro _
      simp [msScheduleMeeting, hok, if_neg hrt]

theorem C3_reminder_jobs_witness :
    ((msScheduleMeeting envOk margsW sch0).1.success = true) ∧
    ((msScheduleMeeting envOk margsW sch0).2.2.filter Effect.isJob =
      if margsW.start - margsW.leadMin > envOk.now then
        Effect.jobScheduled (ownerJobId reW.event_id)
            (margsW.start - margsW.leadMin) ::
          (match margsW.attendee with
           | some ae => if ae ≠ "owner@example.com" then
               [Effect.jobScheduled (attendeeJobId reW.event_id)
                 (margsW.start - margsW.leadMin)]
             else []
           | none => [])
      else []) ∧
    (margsW.start - margsW.leadMin > envOk.now →
      (ownerJobId reW.event_id, margsW.start - margsW.leadMin) ∈
        (msScheduleMeeting envOk margsW sch0).2.1.jobs ∧
      ∀ ae, margsW.attendee = some ae → ae ≠ "owner@example.com" →
        (attendeeJobId reW.event_id, margsW.start - margsW.leadMin) ∈
          (msScheduleMeeting envOk margsW sch0).2.1.jobs) ∧
    (¬(margsW.start - margsW.leadMin > envOk.now) →
      (msScheduleMeeting envOk margsW sch0).2.1 = sch0) :=
  C3_reminder_jobs envOk margsW sch0 "owner@example.com" reW rfl rfl

/-- C5 counterexample: a fully successful `schedule_meeting` against
`envOk` emits, in order: remote creation, the invitation email to the
attendee, the confirmation email to the organizer, the two reminder jobs,
and only then the local persist/commit — the notification emails (sent
inside `meeting_scheduler.schedule_meeting`) happen strictly before the
local CalendarEvent row is persisted (in `_schedule_meeting`, after the
service returns), the reverse of the claimed order. -/
theorem C5_counterexample :
    ((execute envOk "schedule_meeting" (some (.obj meetPayload)) st0).1.success
      = true) ∧
    ((execute envOk "schedule_meeting" (some (.obj meetPayload)) st0).2.2 =
      [Effect.remoteCreate "Sedinta" 600 660 ["ana@example.com", "owner@example.com"],
       Effect.emailSent "ana@example.com",
       Effect.emailSent "owner@example.com",
       Effect.jobScheduled "reminder_g1_owner" 540,
       Effect.jobScheduled "reminder_g1_attendee" 540,
       Effect.dbCommit]) ∧
    ((execute envOk "schedule_meeting" (some (.obj meetPayload)) st0).2.2.findIdx
        Effect.isEmail <
      (execute envOk "schedule_meeting" (some (.obj meetPayload)) st0).2.2.findIdx
        Effect.isCommit) := by
  decide

theorem scheduleReminder_no_commit (env : Env) (eid : String) (rt : Time)
    (att : Option String) (sch : Sched) :
    ∀ e ∈ (scheduleReminder env eid rt att sch).2, e.isCommit = false := by
  intro e he
  rcases hsm : env.smtpUser with _ | u <;> rcases att with _ | ae
  · simp [scheduleReminder, hsm] at he
  · simp [scheduleReminder, hsm] at he
    subst he; rfl
  · simp [scheduleReminder, hsm] at he
    subst he; rfl
  · by_cases hc : ae = u
    · simp [scheduleReminder, hsm, hc] at he
      subst he; rfl
    · simp [scheduleReminder, hsm, hc] at he
      rcases he with he | he <;> (subst he; rfl)

theorem msScheduleMeeting_no_commit (env : Env) (a : MArgs) (sch : Sched) :
    ∀ e ∈ (msScheduleMeeting env a sch).2.2, e.isCommit = false := by
  intro e he
  rcases hc : createdMeet env a with err | re
  · simp [msScheduleMeeting, hc] at he
    subst he; rfl
  · simp only [msScheduleMeeting, hc] at he
    rcases List.mem_append.mp he with h1 | h2
    · rcases List.mem_append.mp h1 with h3 | h4
      · rcases List.mem_append.mp h3 with h5 | h6
        · simp at h5; subst h5; rfl
        · rcases hA : a.attendee with _ | ae <;> rw [hA] at h6 <;> simp at h6
          subst h6; rfl
      · rcases hsm : env.smtpUser with _ | u <;> rw [hsm] at h4 <;> simp at h4
        subst h4; rfl
    · by_cases hrt : a.start - a.leadMin > env.now
      · rw [if_pos hrt] at h2
        exact scheduleReminder_no_commit env re.event_id _ a.attendee sch e h2
      · rw [if_neg hrt] at h2
        simp at h2

theorem scheduleMeetingGo_commit_last (env : Env) (a : MArgs) (st : AppState)
    (h : (scheduleMeetingGo env a st).1.success = true) :
    ∃ pre, ((scheduleMeetingGo env a st).2.2 = pre ++ [Effect.dbCommit]) ∧
      ∀ e ∈ pre, e.isCommit = false := by
  unfold scheduleMeetingGo at h ⊢
  rcases hms : msScheduleMeeting env a st.sched with ⟨r, sch', tr⟩
  rw [hms] at h
  dsimp only at h ⊢
  have htr : (msScheduleMeeting env a st.sched).2.2 = tr := by rw [hms]
  by_cases hr : r.success = true
  · rw [if_pos hr] at h ⊢
    rcases hE : a.endT with _ | endV
    · rw [hE] at h
      simp [failRes] at h
    · exact ⟨tr, rfl, fun e hetr =>
        msScheduleMeeting_no_commit env a st.sched e (htr ▸ hetr)⟩
  · rw [if_neg hr] at h
    exact absurd h hr

/-- C5 (amended): in every successful `schedule_meeting`, the single local
persist (the commit that writes the CalendarEvent and AgentAction rows)
is the last effect of the call: every other effect — remote creation,
the invitation and confirmation emails, the reminder jobs — happens
strictly before it. The source's order is remote event → emails →
reminder jobs → local persist: the emails are sent before the local row
exists, not after, and no email is ever sent after the persist. -/
theorem C5_amended (env : Env) (o : PObj) (st : AppState)
    (h : (execute env "schedule_meeting" (some (.obj o)) st).1.success = true) :
    ∃ pre, ((execute env "schedule_meeting" (some (.obj o)) st).2.2 =
        pre ++ [Effect.dbCommit]) ∧ ∀ e ∈ pre, e.isCommit = false := by
  have he : execute env "schedule_meeting" (some (.obj o)) st =
      scheduleMeetingH env (.obj o) st := rfl
  rw [he] at h ⊢
  unfold scheduleMeetingH at h ⊢
  dsimp only at h ⊢
  rcases hs : resolveStart env o with _ | start
  · rw [hs] at h
    simp [failRes] at h
  · rw [hs] at h
    dsimp only at h ⊢
    by_cases hle : start ≤ env.now
    · rw [if_pos hle] at h
      simp [failRes] at h
    · rw [if_neg hle] at h ⊢
      unfold scheduleMeetingCore at h ⊢
      rcases hA : strTruthy o.attendee_email with _ | ae
      · rw [hA] at h
        dsimp only at h
        exact scheduleMeetingGo_commit_last env (smArgs env o start) st h
      · rw [hA] at h
        dsimp only at h ⊢
        by_cases hv : (!env.validateEmail ae) = true
        · rw [if_pos hv] at h
          simp [failRes] at h
        · rw [if_neg hv] at h ⊢
          exact scheduleMeetingGo_commit_last env (smArgs env o start) st h

theorem C5_amended_witness :
    ∃ pre, ((execute envOk "schedule_meeting" (some (.obj meetPayload)) st0).2.2 =
        pre ++ [Effect.dbCommit]) ∧ ∀ e ∈ pre, e.isCommit = false :=
  C5_amended envOk meetPayload st0 (by decide)

theorem listTasksRows_subset (env : Env) (db : DBState) (o : PObj) :
    ∀ t ∈ listTasksRows env db o, t ∈ db.tasks ∧ t.is_completed = false := by
  intro t ht
  have h0 : t ∈ db.tasks.filter (fun x => !x.is_completed) := by
    unfold listTasksRows at ht
    dsimp only at ht
    split at ht
    · have h1 := (List.mem_filter.mp ht).1
      split at h1
      · exact List.filter_subset' _ h1
      · exact h1
    · split at ht
      · exact List.filter_subset' _ ht
      · exact ht
  have h2 := List.mem_filter.mp h0
  exact ⟨h2.1, by simpa using h2.2⟩

theorem listTasksRows_today (env : Env) (db : DBState) (o : PObj)
    (htoday : boolTruthy o.today = true) :
    ∀ t ∈ listTasksRows env db o, ∃ d, t.due_date = some d ∧
      env.todayStart ≤ d ∧ d < env.tomorrowStart := by
  intro t ht
  unfold listTasksRows at ht
  dsimp only at ht
  rw [if_pos htoday] at ht
  have h2 := (List.mem_filter.mp ht).2
  rcases hd : t.due_date with _ | d
  · rw [hd] at h2
    simp at h2
  · rw [hd] at h2
    simp only [Bool.and_eq_true, decide_eq_true_eq] at h2
    exact ⟨d, rfl, h2.1, h2.2⟩

/-- C9 (amended): `list_tasks` returns active tasks only, sorted by the
nulls-FIRST ascending `due_date` order actually requested by the source
(`order_by(Task.due_date.asc().nullsfirst())`) — a task with a `NULL` due
date sorts before every dated task, the reverse of the claimed nulls-last
order (see the counterexample); and with `today=true` every returned task
has a non-null `due_date` inside the current local day — tasks with a
`NULL` due date are excluded by that filter. -/
theorem C9_list_tasks_order (env : Env) (st : AppState) (o : PObj)
    (ts : List Task)
    (h : (execute env "list_tasks" (some (.obj o)) st).1.tasks = some ts) :
    List.Pairwise TaskDueLe ts ∧
    (∀ t ∈ ts, t ∈ st.db.tasks ∧ t.is_completed = false) ∧
    (boolTruthy o.today = true →
      ∀ t ∈ ts, ∃ d, t.due_date = some d ∧
        env.todayStart ≤ d ∧ d < env.tomorrowStart) := by
  have he : execute env "list_tasks" (some (.obj o)) st =
      listTasksH env (.obj o) st := rfl
  rw [he] at h
  have hts : ts = List.insertionSort TaskDueLe (listTasksRows env st.db o) := by
    have hv : (listTasksH env (.obj o) st).1.tasks =
        some (List.insertionSort TaskDueLe (listTasksRows env st.db o)) := rfl
    rw [hv] at h
    exact (Option.some.inj h).symm
  subst hts
  refine ⟨?_, ?_, ?_⟩
  · exact List.sorted_insertionSort TaskDueLe _
  · intro t ht
    exact listTasksRows_subset env st.db o t
      ((List.perm_insertionSort TaskDueLe _).mem_iff.mp ht)
  · intro htoday t ht
    exact listTasksRows_today env st.db o htoday t
      ((List.perm_insertionSort TaskDueLe _).mem_iff.mp ht)

theorem C9_list_tasks_order_witness :
    List.Pairwise TaskDueLe [taskToday] ∧
    (∀ t ∈ [taskToday], t ∈ stC9W.db.tasks ∧ t.is_completed = false) ∧
    (boolTruthy (({ today := some true } : PObj)).today = true →
      ∀ t ∈ [taskToday], ∃ d, t.due_date = some d ∧
        envOk.todayStart ≤ d ∧ d < envOk.tomorrowStart) :=
  C9_list_tasks_order envOk stC9W { today := some true } [taskToday] rfl

end Asis
